import Mathlib

/-!
Shallow embedding of the MusicMasher playback core.

Sources embedded here:
- `AudioTrack` (src/unnamed/part_001, audio-track.model.ts): track entity
  with mix state; the decoded `AudioBuffer` is modelled as `Option ℚ`
  carrying only its duration (the one attribute the core reads); the
  platform `File` object is omitted (opaque, never read by the core).
- `Timeline` (src/music-masher/src/app/models/timeline.model.ts).
- `AudioService` (src/music-masher/src/app/app.ts, audio.service.ts):
  the scheduler.  Platform side effects (`source.start`, `source.stop`)
  are reified as an `AudioEvent` trace, and the `activeSources`
  `Map<string, AudioBufferSourceNode>` is modelled by its key set as a
  `List String` with `Map.set` / `Map.delete` semantics.

Times, durations, gains and zoom factors are JavaScript numbers in the
source; they are modelled as `ℚ`.
-/

structure AudioTrack where
  id : String
  name : String
  audioBuffer : Option ℚ
  startTime : ℚ
  duration : ℚ
  volume : ℚ
  isMuted : Bool
  isSolo : Bool
  color : String
  deriving Repr, DecidableEq

namespace AudioTrack

/-- Source: `setAudioBuffer(buffer)` — stores the buffer and derives
`duration` from it. -/
def setAudioBuffer (tr : AudioTrack) (buffer : ℚ) : AudioTrack :=
  { tr with audioBuffer := some buffer, duration := buffer }

/-- Source: `setStartTime(time)` — `this.startTime = Math.max(0, time)`. -/
def setStartTime (tr : AudioTrack) (time : ℚ) : AudioTrack :=
  { tr with startTime := max 0 time }

/-- Source: `setVolume(volume)` —
`this.volume = Math.max(0, Math.min(1, volume))`. -/
def setVolume (tr : AudioTrack) (volume : ℚ) : AudioTrack :=
  { tr with volume := max 0 (min 1 volume) }

/-- Source: `toggleMute()` — `this.isMuted = !this.isMuted`. -/
def toggleMute (tr : AudioTrack) : AudioTrack :=
  { tr with isMuted := !tr.isMuted }

/-- Source: `toggleSolo()` — `this.isSolo = !this.isSolo`. -/
def toggleSolo (tr : AudioTrack) : AudioTrack :=
  { tr with isSolo := !tr.isSolo }

/-- Source: `getEndTime()` — `this.startTime + this.duration`. -/
def getEndTime (tr : AudioTrack) : ℚ :=
  tr.startTime + tr.duration

end AudioTrack

structure Timeline where
  tracks : List AudioTrack
  currentTime : ℚ
  zoom : ℚ
  isPlaying : Bool
  bpm : ℚ
  duration : ℚ
  deriving Repr, DecidableEq

namespace Timeline

/-- Source: the `Timeline` constructor. -/
def init : Timeline :=
  { tracks := [], currentTime := 0, zoom := 50, isPlaying := false,
    bpm := 120, duration := 0 }

/-- Source: `Math.max(...this.tracks.map(track => track.getEndTime()))`
in `updateDuration` (only evaluated on a non-empty track list). -/
def maxTrackEnd : List AudioTrack → ℚ
  | [] => 0
  | tr :: rest => rest.foldl (fun acc x => max acc x.getEndTime) tr.getEndTime

/-- Source: `updateDuration()` — empty track list sets `duration = 0`
(early return); otherwise `duration = Math.max(maxEndTime, 60)`. -/
def updateDuration (tl : Timeline) : Timeline :=
  if tl.tracks.isEmpty then { tl with duration := 0 }
  else { tl with duration := max (maxTrackEnd tl.tracks) 60 }

/-- Source: `addTrack(track)` — push then `updateDuration()`. -/
def addTrack (tl : Timeline) (track : AudioTrack) : Timeline :=
  updateDuration { tl with tracks := tl.tracks ++ [track] }

/-- Source: `removeTrack(trackId)` — filter out the id then
`updateDuration()`. -/
def removeTrack (tl : Timeline) (trackId : String) : Timeline :=
  updateDuration { tl with tracks := tl.tracks.filter (fun tr => tr.id != trackId) }

/-- Source: `getTrack(trackId)`. -/
def getTrack (tl : Timeline) (trackId : String) : Option AudioTrack :=
  tl.tracks.find? (fun tr => tr.id == trackId)

/-- Source: `setCurrentTime(time)` —
`this.currentTime = Math.max(0, Math.min(time, this.duration))`. -/
def setCurrentTime (tl : Timeline) (time : ℚ) : Timeline :=
  { tl with currentTime := max 0 (min time tl.duration) }

/-- Source: `setZoom(zoom)` —
`this.zoom = Math.max(10, Math.min(200, zoom))`. -/
def setZoom (tl : Timeline) (zoom : ℚ) : Timeline :=
  { tl with zoom := max 10 (min 200 zoom) }

/-- Source: `play()`. -/
def play (tl : Timeline) : Timeline :=
  { tl with isPlaying := true }

/-- Source: `pause()`. -/
def pause (tl : Timeline) : Timeline :=
  { tl with isPlaying := false }

/-- Source: `stop()`. -/
def stop (tl : Timeline) : Timeline :=
  { tl with isPlaying := false, currentTime := 0 }

/-- Source: `getActiveTracks(time)` — tracks with
`time >= startTime && time < getEndTime()`. -/
def getActiveTracks (tl : Timeline) (time : ℚ) : List AudioTrack :=
  tl.tracks.filter fun tr =>
    decide (tr.startTime ≤ time) && decide (time < tr.getEndTime)

/-- Source: `getSoloTracks()`. -/
def getSoloTracks (tl : Timeline) : List AudioTrack :=
  tl.tracks.filter (·.isSolo)

/-- Source: `hasAnySoloTracks()` — `tracks.some(track => track.isSolo)`. -/
def hasAnySoloTracks (tl : Timeline) : Bool :=
  tl.tracks.any (·.isSolo)

/-- Source: `clear()`. -/
def clear (tl : Timeline) : Timeline :=
  { tl with tracks := [], currentTime := 0, duration := 0, isPlaying := false }

end Timeline

-- Concrete tracks and timelines used by closed instances below.

/-- A decoded, unmuted, unsoloed 5-second clip at offset 0. -/
def trackA : AudioTrack :=
  { id := "a", name := "A", audioBuffer := some 5, startTime := 0,
    duration := 5, volume := 1, isMuted := false, isSolo := false,
    color := "#FF6B6B" }

/-- The boundary-example clip: offset 2, duration 3 (so end instant 5). -/
def boundaryTrack : AudioTrack :=
  { id := "b", name := "B", audioBuffer := some 3, startTime := 2,
    duration := 3, volume := 1, isMuted := false, isSolo := false,
    color := "#4ECDC4" }

/-- A timeline holding only `boundaryTrack`. -/
def boundaryTimeline : Timeline :=
  { Timeline.init with tracks := [boundaryTrack] }

-- Helper lemmas about the running maximum used by `updateDuration`.

lemma foldl_max_init_le (f : AudioTrack → ℚ) (l : List AudioTrack) (b : ℚ) :
    b ≤ l.foldl (fun acc x => max acc (f x)) b := by
  induction l generalizing b with
  | nil => exact le_refl b
  | cons x xs ih => exact le_trans (le_max_left _ _) (ih (max b (f x)))

lemma foldl_max_mem_le (f : AudioTrack → ℚ) (l : List AudioTrack) (b : ℚ)
    (tr : AudioTrack) (h : tr ∈ l) :
    f tr ≤ l.foldl (fun acc x => max acc (f x)) b := by
  induction l generalizing b with
  | nil => cases h
  | cons x xs ih =>
    rcases List.mem_cons.mp h with rfl | hmem
    · exact le_trans (le_max_right _ _) (foldl_max_init_le f xs (max b (f tr)))
    · exact ih (max b (f x)) hmem

lemma le_maxTrackEnd (l : List AudioTrack) (tr : AudioTrack) (h : tr ∈ l) :
    tr.getEndTime ≤ Timeline.maxTrackEnd l := by
  cases l with
  | nil => cases h
  | cons x xs =>
    rcases List.mem_cons.mp h with rfl | hmem
    · exact foldl_max_init_le AudioTrack.getEndTime xs tr.getEndTime
    · exact foldl_max_mem_le AudioTrack.getEndTime xs x.getEndTime tr hmem

/-- C3 counterexample.  The claim says an empty `Timeline` reports
`totalDuration = 60`.  Removing the only track leaves an empty timeline
whose recomputed `duration` is `0`, not `60`: `updateDuration` has an
early return that sets `duration = 0` when the track list is empty. -/
theorem claim_C3_counterexample :
    ((Timeline.init.addTrack trackA).removeTrack "a").tracks = [] ∧
    ((Timeline.init.addTrack trackA).removeTrack "a").duration = 0 ∧
    ¬ ((Timeline.init.addTrack trackA).removeTrack "a").duration = 60 := by
  with_unfolding_all decide

/-- C3 amended: after `updateDuration`, `duration` equals
`max (max endTime over tracks) 60` when the track list is non-empty, and
`0` (not `60`) when it is empty; in either case `duration` dominates
every track's end time, and it is at least `60` whenever some track
exists. -/
lemma updateDuration_duration (tl : Timeline) :
    (tl.updateDuration).duration =
      if tl.tracks.isEmpty then 0 else max (Timeline.maxTrackEnd tl.tracks) 60 := by
  unfold Timeline.updateDuration
  split <;> rfl

theorem claim_C3_amended (tl : Timeline) :
    ((tl.updateDuration).duration =
      if tl.tracks.isEmpty then 0 else max (Timeline.maxTrackEnd tl.tracks) 60) ∧
    (tl.tracks.all fun tr =>
      decide (tr.getEndTime ≤ (tl.updateDuration).duration)) = true ∧
    (tl.tracks.isEmpty || decide (60 ≤ (tl.updateDuration).duration)) = true := by
  refine ⟨updateDuration_duration tl, ?_, ?_⟩
  · rw [List.all_eq_true]
    intro tr hmem
    rw [updateDuration_duration]
    cases h : tl.tracks.isEmpty with
    | true =>
      rw [List.isEmpty_iff.mp h] at hmem
      cases hmem
    | false =>
      simp only [Bool.false_eq_true, if_false]
      exact decide_eq_true
        (le_trans (le_maxTrackEnd tl.tracks tr hmem) (le_max_left _ _))
  · cases h : tl.tracks.isEmpty with
    | true => rfl
    | false =>
      simp only [h, Bool.false_or, updateDuration_duration,
        Bool.false_eq_true, if_false]
      exact decide_eq_true (le_max_right _ _)

/-- C6 confirmed: `getActiveTracks t` returns exactly the tracks of the
timeline whose half-open interval `[startTime, startTime + duration)`
contains `t`; the boundary clip with offset 2 and duration 3 is active
at `t = 4.999` and not at `t = 5`. -/
theorem claim_C6 (tl : Timeline) (t : ℚ) (tr : AudioTrack) :
    (tr ∈ tl.getActiveTracks t ↔
      tr ∈ tl.tracks ∧ tr.startTime ≤ t ∧ t < tr.startTime + tr.duration) ∧
    boundaryTrack ∈ boundaryTimeline.getActiveTracks (4999/1000) ∧
    boundaryTrack ∉ boundaryTimeline.getActiveTracks 5 := by
  refine ⟨?_, ?_, ?_⟩
  · simp [Timeline.getActiveTracks, AudioTrack.getEndTime, List.mem_filter,
      and_assoc]
  · with_unfolding_all decide
  · with_unfolding_all decide

/-- C9 confirmed: `setZoom` stores its argument clamped into `[10, 200]`
and `setVolume` (the track gain setter) stores its argument clamped into
`[0, 1]`; in particular `setZoom 500` stores `200`, `setZoom 1` stores
`10`, and `setVolume (-1/2)` stores `0`. -/
theorem claim_C9 (tl : Timeline) (z : ℚ) (tr : AudioTrack) (v : ℚ) :
    ((tl.setZoom z).zoom = max 10 (min 200 z) ∧
      10 ≤ (tl.setZoom z).zoom ∧ (tl.setZoom z).zoom ≤ 200) ∧
    ((tr.setVolume v).volume = max 0 (min 1 v) ∧
      0 ≤ (tr.setVolume v).volume ∧ (tr.setVolume v).volume ≤ 1) ∧
    (Timeline.init.setZoom 500).zoom = 200 ∧
    (Timeline.init.setZoom 1).zoom = 10 ∧
    (trackA.setVolume (-(1/2))).volume = 0 := by
  refine ⟨⟨rfl, le_max_left _ _, ?_⟩, ⟨rfl, le_max_left _ _, ?_⟩, ?_, ?_, ?_⟩
  · exact max_le (by norm_num) (min_le_left _ _)
  · exact max_le (by norm_num) (min_le_left _ _)
  · with_unfolding_all decide
  · with_unfolding_all decide
  · with_unfolding_all decide

/-- C10 confirmed: `toggleMute` is an involution touching only
`isMuted`, and `toggleSolo` is an involution touching only `isSolo`. -/
theorem claim_C10 (tr : AudioTrack) :
    tr.toggleMute.toggleMute = tr ∧
    tr.toggleMute.isMuted = !tr.isMuted ∧
    tr.toggleMute.id = tr.id ∧ tr.toggleMute.name = tr.name ∧
    tr.toggleMute.audioBuffer = tr.audioBuffer ∧
    tr.toggleMute.startTime = tr.startTime ∧
    tr.toggleMute.duration = tr.duration ∧
    tr.toggleMute.volume = tr.volume ∧
    tr.toggleMute.isSolo = tr.isSolo ∧
    tr.toggleMute.color = tr.color ∧
    tr.toggleSolo.toggleSolo = tr ∧
    tr.toggleSolo.isSolo = !tr.isSolo ∧
    tr.toggleSolo.id = tr.id ∧ tr.toggleSolo.name = tr.name ∧
    tr.toggleSolo.audioBuffer = tr.audioBuffer ∧
    tr.toggleSolo.startTime = tr.startTime ∧
    tr.toggleSolo.duration = tr.duration ∧
    tr.toggleSolo.volume = tr.volume ∧
    tr.toggleSolo.isMuted = tr.isMuted ∧
    tr.toggleSolo.color = tr.color := by
  simp [AudioTrack.toggleMute, AudioTrack.toggleSolo]

/-!
The scheduler (`AudioService`, src/music-masher/src/app/app.ts).

Platform calls `source.start(at, offset)` and `source.stop()` are
reified as `AudioEvent`s; the `activeSources` map is modelled by its
key set, with `Map.set` semantics (`registrySet`) and `Map.delete`
semantics (list filter).
-/

inductive AudioEvent where
  | start (track : AudioTrack) (atInstant : ℚ) (bufferOffset : ℚ)
  | stop (trackId : String)
  deriving Repr, DecidableEq

namespace AudioEvent

/-- True exactly on `start` events. -/
def isStart : AudioEvent → Bool
  | .start _ _ _ => true
  | .stop _ => false

/-- The scheduled start instant of a `start` event. -/
def scheduledAt : AudioEvent → Option ℚ
  | .start _ at0 _ => some at0
  | .stop _ => none

end AudioEvent

/-- Tracks carried by the `start` events of a trace, in order. -/
def startedTracks (events : List AudioEvent) : List AudioTrack :=
  events.filterMap fun e =>
    match e with
    | .start tr _ _ => some tr
    | .stop _ => none

/-- Ids of the tracks started in a trace. -/
def startedIds (events : List AudioEvent) : List String :=
  (startedTracks events).map (·.id)

namespace AudioService

/-- Key-set semantics of `Map.set(trackId, source)` on `activeSources`. -/
def registrySet (registry : List String) (trackId : String) : List String :=
  if trackId ∈ registry then registry else registry ++ [trackId]

/-- Source: the filter inside `playTracks` (its `tracksToStart`):
skip if already playing, if no buffer, if muted, if a solo exists and
the track is not soloed; keep if `currentTime` lies in
`[startTime, getEndTime())`. -/
def shouldStart (registry : List String) (currentTime : ℚ) (hasSoloTracks : Bool)
    (track : AudioTrack) : Bool :=
  !decide (track.id ∈ registry) && track.audioBuffer.isSome && !track.isMuted &&
    (!hasSoloTracks || track.isSolo) &&
    (decide (track.startTime ≤ currentTime) && decide (currentTime < track.getEndTime))

/-- Source: the `forEach` in `playTracks` that prepares
`sourcesToStart`: skip if no buffer, compute
`bufferOffset = max(0, currentTime - startTime)`, skip if
`bufferOffset >= duration`, else push `(source, trackId, bufferOffset)`
(the source carries the track). -/
def buildSource (currentTime : ℚ) (track : AudioTrack) : Option (AudioTrack × ℚ) :=
  if track.audioBuffer.isNone then none
  else if track.duration ≤ max 0 (currentTime - track.startTime) then none
  else some (track, max 0 (currentTime - track.startTime))

/-- Source: `playTrack(track, timelineTime, contextStartTime?)` —
the single-track start path.  Note it does not consult `activeSources`
before starting; `Map.set` then overwrites any existing entry. -/
def playTrack (track : AudioTrack) (timelineTime : ℚ) (contextStartTime : Option ℚ)
    (now : ℚ) (registry : List String) : Option AudioEvent × List String :=
  if track.audioBuffer.isNone || track.isMuted then (none, registry)
  else if decide (timelineTime < track.startTime) ||
      decide (track.getEndTime ≤ timelineTime) then (none, registry)
  else if decide (max 0 (timelineTime - track.startTime) < track.duration) then
    (some (.start track (contextStartTime.getD (now + 1/100))
        (max 0 (timelineTime - track.startTime))),
     registrySet registry track.id)
  else (none, registry)

/-- Source: `playTracks(tracks, currentTime, hasSoloTracks)` — filter
`tracksToStart`, early return if empty, compute one
`syncStartTime = audioContext.currentTime + 0.05` for the whole pass,
prepare `sourcesToStart`, then start each at `syncStartTime` and
register it under its track id.  `now` stands for
`audioContext.currentTime`. -/
def playTracks (tracks : List AudioTrack) (currentTime : ℚ) (hasSoloTracks : Bool)
    (now : ℚ) (registry : List String) : List AudioEvent × List String :=
  if (tracks.filter (shouldStart registry currentTime hasSoloTracks)).isEmpty then
    ([], registry)
  else
    (((tracks.filter (shouldStart registry currentTime hasSoloTracks)).filterMap
        (buildSource currentTime)).map
      (fun src => AudioEvent.start src.1 (now + 1/20) src.2),
     ((tracks.filter (shouldStart registry currentTime hasSoloTracks)).filterMap
        (buildSource currentTime)).foldl
      (fun reg src => registrySet reg src.1.id) registry)

/-- Source: `updatePlayback` — delegates to `playTracks` unchanged. -/
def updatePlayback (tracks : List AudioTrack) (currentTime : ℚ) (hasSoloTracks : Bool)
    (now : ℚ) (registry : List String) : List AudioEvent × List String :=
  playTracks tracks currentTime hasSoloTracks now registry

/-- Source: `stopTrack(trackId)` — stop and delete when registered. -/
def stopTrack (trackId : String) (registry : List String) : List AudioEvent × List String :=
  if trackId ∈ registry then
    ([.stop trackId], registry.filter (fun a => a != trackId))
  else ([], registry)

/-- Source: `stopAll()` — stop every registered source and clear. -/
def stopAll (registry : List String) : List AudioEvent × List String :=
  (registry.map .stop, [])

/-- Source: the `ended` listener installed in `playTracks` — a source
that naturally ends deletes its own registry entry. -/
def handleEnded (trackId : String) (registry : List String) : List String :=
  registry.filter (fun a => a != trackId)

end AudioService

/-- Source: the reconciliation call in `TimelineService.play` and its
50 ms interval callback:
`audioService.updatePlayback(timeline.tracks, timeline.currentTime, timeline.hasAnySoloTracks())`. -/
def updateStep (tl : Timeline) (now : ℚ) (registry : List String) :
    List AudioEvent × List String :=
  AudioService.updatePlayback tl.tracks tl.currentTime tl.hasAnySoloTracks now registry

/-- Modelled from the spec (§4.3): the mix-state resolver
`audibleTracks`.  If any track is soloed the audible set is the solo
set (mute ignored); otherwise all unmuted tracks.  Used only to state
what the claims predict; the code under src/ has no such function. -/
def specAudibleIds (tracks : List AudioTrack) : List String :=
  if tracks.any (·.isSolo) then (tracks.filter (·.isSolo)).map (·.id)
  else (tracks.filter fun tr => !tr.isMuted).map (·.id)

/-- Modelled from the spec (§4.4 step 1):
`wanted = audibleTracks(tracks) ∩ activeTracksAt(position)`. -/
def specWantedIds (tracks : List AudioTrack) (t : ℚ) : List String :=
  (tracks.filter fun tr =>
    decide (tr.id ∈ specAudibleIds tracks) &&
    (decide (tr.startTime ≤ t) && decide (t < tr.getEndTime))).map (·.id)

/-- The soloed-and-active set that claim C1 predicts the scheduler
starts (its wording ignores the mute flag of a soloed track). -/
def specC1SoloActiveIds (tracks : List AudioTrack) (t : ℚ) : List String :=
  (tracks.filter fun tr =>
    tr.isSolo && (decide (tr.startTime ≤ t) && decide (t < tr.getEndTime))).map (·.id)

-- Helper lemmas about the scheduler pipeline.

lemma filterMap_eq_map_of {α β : Type} (l : List α) (f : α → Option β) (g : α → β)
    (h : ∀ x ∈ l, f x = some (g x)) : l.filterMap f = l.map g := by
  induction l with
  | nil => rfl
  | cons x xs ih =>
    simp only [List.filterMap_cons, h x (List.mem_cons_self x xs), List.map_cons]
    rw [ih fun y hy => h y (List.mem_cons_of_mem x hy)]

lemma buildSource_of_shouldStart (reg : List String) (t : ℚ) (s : Bool)
    (tr : AudioTrack) (h : AudioService.shouldStart reg t s tr = true) :
    AudioService.buildSource t tr = some (tr, t - tr.startTime) := by
  unfold AudioService.shouldStart at h
  simp only [Bool.and_eq_true] at h
  obtain ⟨⟨⟨⟨hreg, hbuf⟩, hmut⟩, hsolo⟩, hle, hlt⟩ := h
  have hle' : tr.startTime ≤ t := of_decide_eq_true hle
  have hlt' : t < tr.startTime + tr.duration := by
    have hx := of_decide_eq_true hlt
    rwa [AudioTrack.getEndTime] at hx
  have h1 : tr.audioBuffer.isNone = false := by
    cases hb : tr.audioBuffer with
    | none => rw [hb] at hbuf; simp at hbuf
    | some b => rfl
  have hmax : max 0 (t - tr.startTime) = t - tr.startTime :=
    max_eq_right (sub_nonneg.mpr hle')
  have hdur : ¬ tr.duration ≤ max 0 (t - tr.startTime) := by
    rw [hmax]
    exact not_le.mpr (sub_lt_iff_lt_add'.mpr hlt')
  unfold AudioService.buildSource
  rw [if_neg (by rw [h1]; exact Bool.false_ne_true), if_neg hdur, hmax]

lemma playTracks_eq (tracks : List AudioTrack) (t : ℚ) (s : Bool) (now : ℚ)
    (reg : List String) :
    AudioService.playTracks tracks t s now reg =
      ((tracks.filter (AudioService.shouldStart reg t s)).map
          (fun tr => AudioEvent.start tr (now + 1/20) (t - tr.startTime)),
       (tracks.filter (AudioService.shouldStart reg t s)).foldl
          (fun r tr => AudioService.registrySet r tr.id) reg) := by
  have hfm : (tracks.filter (AudioService.shouldStart reg t s)).filterMap
        (AudioService.buildSource t)
      = (tracks.filter (AudioService.shouldStart reg t s)).map
        (fun tr => (tr, t - tr.startTime)) :=
    filterMap_eq_map_of _ _ _ (fun tr htr =>
      buildSource_of_shouldStart reg t s tr (List.of_mem_filter htr))
  unfold AudioService.playTracks
  split
  · rename_i h
    rw [List.isEmpty_iff.mp h]
    simp
  · rw [hfm, List.map_map, List.foldl_map]
    rfl

lemma mem_registrySet (r : List String) (tid a : String) :
    a ∈ AudioService.registrySet r tid ↔ a ∈ r ∨ a = tid := by
  unfold AudioService.registrySet
  by_cases h : tid ∈ r
  · rw [if_pos h]
    exact ⟨Or.inl, fun hc => hc.elim (fun hr => hr) (fun he => he ▸ h)⟩
  · rw [if_neg h]
    simp [List.mem_append]

lemma nodup_registrySet (r : List String) (tid : String) (h : r.Nodup) :
    (AudioService.registrySet r tid).Nodup := by
  unfold AudioService.registrySet
  by_cases hm : tid ∈ r
  · rw [if_pos hm]; exact h
  · rw [if_neg hm]
    simp [List.nodup_append, h, hm]

lemma mem_foldl_registrySet (l : List AudioTrack) (reg : List String) (a : String) :
    a ∈ l.foldl (fun r tr => AudioService.registrySet r tr.id) reg ↔
      a ∈ reg ∨ a ∈ l.map (·.id) := by
  induction l generalizing reg with
  | nil => simp
  | cons x xs ih =>
    rw [List.foldl_cons, ih, mem_registrySet]
    simp only [List.map_cons, List.mem_cons]
    tauto

lemma nodup_foldl_registrySet (l : List AudioTrack) (reg : List String)
    (h : reg.Nodup) :
    (l.foldl (fun r tr => AudioService.registrySet r tr.id) reg).Nodup := by
  induction l generalizing reg with
  | nil => exact h
  | cons x xs ih => exact ih _ (nodup_registrySet _ _ h)

lemma startedTracks_map_start (l : List AudioTrack) (c : ℚ) (f : AudioTrack → ℚ) :
    startedTracks (l.map fun tr => AudioEvent.start tr c (f tr)) = l := by
  induction l with
  | nil => rfl
  | cons x xs ih =>
    simp only [startedTracks, List.map_cons, List.filterMap_cons] at *
    rw [ih]

lemma shouldStart_mono_false (reg reg1 : List String) (t : ℚ) (s : Bool)
    (tr : AudioTrack) (hsub : ∀ a, a ∈ reg → a ∈ reg1)
    (h : AudioService.shouldStart reg t s tr = false) :
    AudioService.shouldStart reg1 t s tr = false := by
  by_cases hm1 : tr.id ∈ reg1
  · simp [AudioService.shouldStart, hm1]
  · have hm : tr.id ∉ reg := fun c => hm1 (hsub _ c)
    unfold AudioService.shouldStart at h ⊢
    rw [decide_eq_false hm, Bool.not_false, Bool.true_and] at h
    rw [decide_eq_false hm1, Bool.not_false, Bool.true_and]
    exact h

lemma playTracks_fst (tracks : List AudioTrack) (t : ℚ) (s : Bool) (now : ℚ)
    (reg : List String) :
    (AudioService.playTracks tracks t s now reg).1 =
      (tracks.filter (AudioService.shouldStart reg t s)).map
        (fun tr => AudioEvent.start tr (now + 1/20) (t - tr.startTime)) := by
  rw [playTracks_eq]

lemma playTracks_snd (tracks : List AudioTrack) (t : ℚ) (s : Bool) (now : ℚ)
    (reg : List String) :
    (AudioService.playTracks tracks t s now reg).2 =
      (tracks.filter (AudioService.shouldStart reg t s)).foldl
        (fun r tr => AudioService.registrySet r tr.id) reg := by
  rw [playTracks_eq]

-- Further concrete fixtures for the scheduler claims.

/-- A muted, unsoloed decoded clip with id "t1", active on [0, 5). -/
def mutedTrack : AudioTrack :=
  { id := "t1", name := "T1", audioBuffer := some 5, startTime := 0,
    duration := 5, volume := 1, isMuted := true, isSolo := false,
    color := "#98D8C8" }

/-- An unmuted soloed decoded clip, active on [0, 5). -/
def soloTrack : AudioTrack :=
  { id := "s", name := "S", audioBuffer := some 5, startTime := 0,
    duration := 5, volume := 1, isMuted := false, isSolo := true,
    color := "#F7DC6F" }

/-- A timeline holding only `soloTrack`. -/
def soloTimeline : Timeline :=
  { Timeline.init with tracks := [soloTrack] }

/-- A decoded clip that is both muted and soloed, active on [0, 5). -/
def muteSoloTrack : AudioTrack :=
  { id := "ms", name := "MS", audioBuffer := some 5, startTime := 0,
    duration := 5, volume := 1, isMuted := true, isSolo := true,
    color := "#BB8FCE" }

/-- A timeline holding only `muteSoloTrack`. -/
def muteSoloTimeline : Timeline :=
  { Timeline.init with tracks := [muteSoloTrack] }

/-- Seek example: clip at timeline offset 4, duration 10. -/
def seekTrack4 : AudioTrack :=
  { id := "k4", name := "K4", audioBuffer := some 10, startTime := 4,
    duration := 10, volume := 1, isMuted := false, isSolo := false,
    color := "#45B7D1" }

/-- Seek example: clip at timeline offset 12, duration 10. -/
def seekTrack12 : AudioTrack :=
  { id := "k12", name := "K12", audioBuffer := some 10, startTime := 12,
    duration := 10, volume := 1, isMuted := false, isSolo := false,
    color := "#FFA07A" }

/-- C1 counterexample.  The claim says a track that is both muted and
soloed still sounds (mute ignored while a solo exists).  In the code,
`playTracks` tests `track.isMuted` before the solo test and skips the
track, so with the sole track both muted and soloed the reconciliation
starts nothing, while the claim predicts it starts that track. -/
theorem claim_C1_counterexample :
    muteSoloTimeline.hasAnySoloTracks = true ∧
    specC1SoloActiveIds muteSoloTimeline.tracks muteSoloTimeline.currentTime = ["ms"] ∧
    (updateStep muteSoloTimeline 0 []).1 = [] ∧
    startedIds (updateStep muteSoloTimeline 0 []).1 = [] := by
  with_unfolding_all decide

/-- C1 amended: with at least one soloed track and an empty registry,
the reconciliation starts exactly the tracks that are decoded, NOT
muted, soloed, and active at the current position — mute overrides
solo on the same track, and non-soloed tracks never start. -/
theorem claim_C1_amended (tl : Timeline) (now : ℚ)
    (h : tl.hasAnySoloTracks = true) :
    startedTracks (updateStep tl now []).1 =
      tl.tracks.filter fun tr =>
        tr.audioBuffer.isSome && !tr.isMuted && tr.isSolo &&
          (decide (tr.startTime ≤ tl.currentTime) &&
            decide (tl.currentTime < tr.getEndTime)) := by
  unfold updateStep AudioService.updatePlayback
  rw [h, playTracks_fst, startedTracks_map_start]
  apply List.filter_congr
  intro tr htr
  unfold AudioService.shouldStart
  rw [decide_eq_false (List.not_mem_nil tr.id), Bool.not_false, Bool.true_and,
    Bool.not_true, Bool.false_or]

/-- Witness for C1 amended: a single unmuted soloed active track is
started by the reconciliation. -/
theorem claim_C1_witness :
    soloTimeline.hasAnySoloTracks = true ∧
    startedTracks (updateStep soloTimeline 0 []).1 =
      soloTimeline.tracks.filter fun tr =>
        tr.audioBuffer.isSome && !tr.isMuted && tr.isSolo &&
          (decide (tr.startTime ≤ soloTimeline.currentTime) &&
            decide (soloTimeline.currentTime < tr.getEndTime)) :=
  ⟨rfl, claim_C1_amended soloTimeline 0 rfl⟩

/-- C2 counterexample.  The claim says every `updatePlayback` pass
stops and deregisters every registered id outside
`wanted = audible ∩ active`.  With the registry holding "t1" whose
track is muted (so `wanted = ∅`), the pass issues no events at all and
leaves the registry unchanged at `["t1"]`, not `∅`. -/
theorem claim_C2_counterexample :
    specWantedIds [mutedTrack] 0 = [] ∧
    AudioService.updatePlayback [mutedTrack] 0 false 0 ["t1"] = ([], ["t1"]) ∧
    ¬ ((["t1"] : List String) = []) := by
  with_unfolding_all decide

/-- C2 amended: `updatePlayback` never issues a stop and never removes
a registry entry; every event of a pass is a start, every previously
registered id is still registered afterwards, every id registered
afterwards was either registered before or started by this pass, and
every id started by the pass is registered afterwards — so the
registered ids after a pass are exactly the prior ids plus the started
ids. -/
theorem claim_C2_amended (tracks : List AudioTrack) (t : ℚ) (s : Bool) (now : ℚ)
    (reg : List String) :
    ((AudioService.updatePlayback tracks t s now reg).1.all AudioEvent.isStart) = true ∧
    (reg.all fun a =>
      decide (a ∈ (AudioService.updatePlayback tracks t s now reg).2)) = true ∧
    ((AudioService.updatePlayback tracks t s now reg).2.all fun a =>
      decide (a ∈ reg) ||
        decide (a ∈ startedIds (AudioService.updatePlayback tracks t s now reg).1)) = true ∧
    ((startedIds (AudioService.updatePlayback tracks t s now reg).1).all fun a =>
      decide (a ∈ (AudioService.updatePlayback tracks t s now reg).2)) = true := by
  unfold AudioService.updatePlayback
  rw [playTracks_fst, playTracks_snd]
  refine ⟨?_, ?_, ?_, ?_⟩
  · rw [List.all_eq_true]
    intro e he
    simp only [List.mem_map] at he
    obtain ⟨tr, _, rfl⟩ := he
    rfl
  · rw [List.all_eq_true]
    intro a ha
    exact decide_eq_true ((mem_foldl_registrySet _ _ _).mpr (Or.inl ha))
  · rw [List.all_eq_true]
    intro a ha
    rw [mem_foldl_registrySet] at ha
    rw [Bool.or_eq_true]
    rcases ha with hcase | hcase
    · exact Or.inl (decide_eq_true hcase)
    · refine Or.inr (decide_eq_true ?_)
      unfold startedIds
      rw [startedTracks_map_start]
      exact hcase
  · unfold startedIds
    rw [startedTracks_map_start, List.all_eq_true]
    intro a ha
    exact decide_eq_true ((mem_foldl_registrySet _ _ _).mpr (Or.inr ha))

/-- C4 counterexample.  The claim says a registered track id is never
issued a second start (membership checked before starting).  The public
start operation `playTrack` does not consult the registry: called on
`trackA` while "a" is already registered, it issues another start
event. -/
theorem claim_C4_counterexample :
    ("a" ∈ (["a"] : List String)) ∧
    (AudioService.playTrack trackA 0 none 0 ["a"]).1 =
      some (AudioEvent.start trackA (0 + 1/100) 0) := by
  with_unfolding_all decide

/-- C4 amended: the reconciliation path (`playTracks`/`updatePlayback`)
does check membership — no track id already registered is started by a
pass — and the registry keeps each id at most once (a no-dup registry
stays no-dup, because registration skips ids already present). -/
theorem claim_C4_amended (tracks : List AudioTrack) (t : ℚ) (s : Bool) (now : ℚ)
    (reg : List String) :
    ((startedIds (AudioService.playTracks tracks t s now reg).1).all fun a =>
      !decide (a ∈ reg)) = true ∧
    (reg.Nodup → ((AudioService.playTracks tracks t s now reg).2).Nodup) := by
  rw [playTracks_fst, playTracks_snd]
  constructor
  · unfold startedIds
    rw [startedTracks_map_start, List.all_eq_true]
    intro a ha
    simp only [List.mem_map] at ha
    obtain ⟨tr, htr, rfl⟩ := ha
    have hS := List.of_mem_filter htr
    unfold AudioService.shouldStart at hS
    simp only [Bool.and_eq_true] at hS
    exact hS.1.1.1.1
  · intro hnd
    exact nodup_foldl_registrySet _ _ hnd

/-- Witness for C4 amended at a concrete input: the pass starting
`soloTrack` against registry `["z"]` starts no registered id, and the
resulting registry is duplicate-free. -/
theorem claim_C4_witness :
    ((startedIds (AudioService.playTracks [soloTrack] 0 true 0 ["z"]).1).all fun a =>
      !decide (a ∈ (["z"] : List String))) = true ∧
    ((AudioService.playTracks [soloTrack] 0 true 0 ["z"]).2).Nodup :=
  ⟨(claim_C4_amended [soloTrack] 0 true 0 ["z"]).1,
   (claim_C4_amended [soloTrack] 0 true 0 ["z"]).2 (by decide)⟩

/-- C5 confirmed: every start event issued within one `playTracks`
pass is scheduled at the same instant `now + 1/20` — the platform
clock reading passed to the pass plus the fixed 0.05 s look-ahead,
computed once per pass and shared by all tracks started in it. -/
theorem claim_C5 (tracks : List AudioTrack) (t : ℚ) (s : Bool) (now : ℚ)
    (reg : List String) :
    ((AudioService.playTracks tracks t s now reg).1.all fun e =>
      decide (e.scheduledAt = some (now + 1/20))) = true := by
  rw [playTracks_fst, List.all_eq_true]
  intro e he
  simp only [List.mem_map] at he
  obtain ⟨tr, _, rfl⟩ := he
  exact decide_eq_true rfl

/-- C7 confirmed: running the reconciliation twice with no state change
in between (same tracks, position, solo flag and registry; the platform
clock may have advanced) produces no events on the second pass and
leaves the registry exactly as the first pass left it. -/
theorem claim_C7 (tracks : List AudioTrack) (t : ℚ) (s : Bool) (now now2 : ℚ)
    (reg : List String) :
    (AudioService.playTracks tracks t s now2
        (AudioService.playTracks tracks t s now reg).2).1 = [] ∧
    (AudioService.playTracks tracks t s now2
        (AudioService.playTracks tracks t s now reg).2).2 =
      (AudioService.playTracks tracks t s now reg).2 := by
  have hreg1 : (AudioService.playTracks tracks t s now reg).2 =
      (tracks.filter (AudioService.shouldStart reg t s)).foldl
        (fun r tr => AudioService.registrySet r tr.id) reg := playTracks_snd _ _ _ _ _
  set reg1 := (AudioService.playTracks tracks t s now reg).2 with hdef
  have hfilter : tracks.filter (AudioService.shouldStart reg1 t s) = [] := by
    rw [List.filter_eq_nil_iff]
    intro tr htr hS
    by_cases hP : AudioService.shouldStart reg t s tr = true
    · have hmem : tr.id ∈ reg1 := by
        rw [hreg1, mem_foldl_registrySet]
        exact Or.inr (List.mem_map_of_mem _ (List.mem_filter.mpr ⟨htr, hP⟩))
      unfold AudioService.shouldStart at hS
      rw [decide_eq_true hmem] at hS
      simp at hS
    · have hF := shouldStart_mono_false reg reg1 t s tr
        (fun a ha => by rw [hreg1, mem_foldl_registrySet]; exact Or.inl ha)
        (Bool.eq_false_iff.mpr hP)
      rw [hS] at hF
      exact Bool.noConfusion hF
  constructor
  · rw [playTracks_fst, hfilter]
    rfl
  · rw [playTracks_snd tracks t s now2 reg1, hfilter]
    rfl

/-- C8 confirmed: every start event of a pass carries
`bufferOffset = max 0 (position - startTime)`, strictly below the
track's `duration`; a track whose computed offset has reached its
duration is never among the started tracks; and at position 10 the
clip at offset 4 is started with `bufferOffset = 6` while the clip at
offset 12 is not started. -/
theorem claim_C8 (tracks : List AudioTrack) (t : ℚ) (s : Bool) (now : ℚ)
    (reg : List String) :
    ((AudioService.playTracks tracks t s now reg).1.all fun e =>
      match e with
      | .start tr _ off =>
          decide (off = max 0 (t - tr.startTime)) && decide (off < tr.duration)
      | .stop _ => false) = true ∧
    (tracks.all fun tr =>
      !decide (tr.duration ≤ max 0 (t - tr.startTime)) ||
        !decide (tr ∈ startedTracks (AudioService.playTracks tracks t s now reg).1)) = true ∧
    (AudioService.playTracks [seekTrack4, seekTrack12] 10 false 0 []).1 =
      [AudioEvent.start seekTrack4 (0 + 1/20) 6] := by
  refine ⟨?_, ?_, ?_⟩
  · rw [playTracks_fst, List.all_eq_true]
    intro e he
    simp only [List.mem_map] at he
    obtain ⟨tr, htr, rfl⟩ := he
    have hS := List.of_mem_filter htr
    unfold AudioService.shouldStart at hS
    simp only [Bool.and_eq_true] at hS
    obtain ⟨⟨⟨⟨hreg, hbuf⟩, hmut⟩, hsolo⟩, hle, hlt⟩ := hS
    have hle' : tr.startTime ≤ t := of_decide_eq_true hle
    have hlt' : t < tr.startTime + tr.duration := by
      have hx := of_decide_eq_true hlt
      rwa [AudioTrack.getEndTime] at hx
    have hmax : max 0 (t - tr.startTime) = t - tr.startTime :=
      max_eq_right (sub_nonneg.mpr hle')
    rw [Bool.and_eq_true]
    exact ⟨decide_eq_true hmax.symm,
      decide_eq_true (sub_lt_iff_lt_add'.mpr hlt')⟩
  · rw [playTracks_fst, startedTracks_map_start, List.all_eq_true]
    intro tr htr
    rw [Bool.or_eq_true]
    by_cases hmem : tr ∈ tracks.filter (AudioService.shouldStart reg t s)
    · have hS := List.of_mem_filter hmem
      unfold AudioService.shouldStart at hS
      simp only [Bool.and_eq_true] at hS
      obtain ⟨⟨⟨⟨hreg, hbuf⟩, hmut⟩, hsolo⟩, hle, hlt⟩ := hS
      have hle' : tr.startTime ≤ t := of_decide_eq_true hle
      have hlt' : t < tr.startTime + tr.duration := by
        have hx := of_decide_eq_true hlt
        rwa [AudioTrack.getEndTime] at hx
      have hmax : max 0 (t - tr.startTime) = t - tr.startTime :=
        max_eq_right (sub_nonneg.mpr hle')
      refine Or.inl ?_
      have hnot : ¬ tr.duration ≤ max 0 (t - tr.startTime) := by
        rw [hmax]
        exact not_le.mpr (sub_lt_iff_lt_add'.mpr hlt')
      rw [decide_eq_false hnot]
      rfl
    · refine Or.inr ?_
      rw [decide_eq_false hmem]
      rfl
  · with_unfolding_all decide
